import Mathlib

/-!
# Verification of the pandora-campus-downloader core pipeline

Shallow embedding of the download orchestration and chapter-reconstruction
pipeline: the status reconciler (`checkDownloadStatus` / `getFailedItems`),
the batch download coordinator (`downloadPagesAsPDF` / `downloadPagesInBatches`),
the retry coordinator (`retryFailedDownloads`), the chapter segmenter
(`identifyChapters`), the chapter merger (`mergeChapterPages`) and the
file-name sanitizer (`sanitizeFileName`).

Machine integers are modelled as `Nat` (page numbers and file sizes are
non-negative in every reachable state), strings as Lean `String`s over
code points, and the book directory's storage state as explicit data
(association lists keyed by file name).  Wall-clock timestamp fields
(`checkedAt`, set from `new Date()`) are omitted: they carry no logic.
All file paths are taken relative to the book directory, so `path.join(bookDir, f)`
is modelled by the bare file name `f`.
-/

namespace PandoraCampus

/-- A table-of-contents entry (interface `TocItem` of the source):
one page descriptor with its docbook id, title and 1-based page number. -/
structure TocItem where
  docbookId : String
  title : String
  pageNum : Nat
deriving DecidableEq, Repr

/-- `metadata.json` (interface `Metadata` of the source). -/
structure Metadata where
  bookNumber : String
  extractedAt : String
  totalPages : Nat
  tableOfContents : List TocItem
deriving DecidableEq, Repr

/-- One per-page entry of the reconciliation report
(interface `DownloadStatus` of the source).  `fileSize = none` models the
JS `undefined` (file absent, or `fs.statSync` threw). -/
structure DownloadStatus where
  docbookId : String
  title : String
  pageNum : Nat
  status : String
  fileName : String
  fileExists : Bool
  fileSize : Option Nat
deriving DecidableEq, Repr

/-- `output.json` (interface `OutputReport` of the source), minus the
wall-clock `checkedAt` field. -/
structure OutputReport where
  bookNumber : String
  totalPages : Nat
  successCount : Nat
  failedCount : Nat
  downloadStatuses : List DownloadStatus
  failedItems : List TocItem
deriving DecidableEq, Repr

/-- The observable storage state of one book directory.
`pdfFiles` associates an artifact file name with `some sz` when the file
exists and `fs.statSync` reports size `sz`, and with `none` when the file
exists but its size cannot be determined (`statSync` throws). -/
structure Store where
  metadata : Option Metadata
  output : Option OutputReport
  pdfFiles : List (String × Option Nat)
deriving DecidableEq, Repr

/-! ## The artifact naming scheme

`page_<pageNum padded with "0" to length 3>_<docbookId with every
non-alphanumeric character replaced by "_">.pdf`.  The scheme is embedded
three times, once per source site, exactly as each site writes it. -/

/-- JS `s.padStart(3, "0")`: prepend `"0"` until the length is at least 3. -/
def padStart3 (s : String) : String :=
  ⟨List.replicate (3 - s.length) '0'⟩ ++ s

/-- JS `s.replace(/[^a-zA-Z0-9]/g, "_")`. -/
def underscoreNonAlnum (s : String) : String :=
  ⟨s.toList.map (fun c => if c.isAlphanum then c else '_')⟩

/-- The artifact name as computed in `checkDownloadStatus`
(src/unnamed/part_000, line 55). -/
def checkFileName (pageNum : Nat) (docbookId : String) : String :=
  "page_" ++ padStart3 (toString pageNum) ++ "_" ++ underscoreNonAlnum docbookId ++ ".pdf"

/-- The artifact name as computed in `mergeChapterPages`
(src/merge-chapters.ts, lines 140–143). -/
def mergeFileName (pageNum : Nat) (docbookId : String) : String :=
  "page_" ++ padStart3 (toString pageNum) ++ "_" ++ underscoreNonAlnum docbookId ++ ".pdf"

/-- The artifact name as computed in `getExpectedFiles` of the cleanup tool
(src/unnamed/part_002, lines 64–72). -/
def cleanupFileName (pageNum : Nat) (docbookId : String) : String :=
  "page_" ++ padStart3 (toString pageNum) ++ "_" ++ underscoreNonAlnum docbookId ++ ".pdf"

/-- The naming scheme as the specification states it: `page_` + the page
number zero-padded to 3 digits + `_` + the id with every non-alphanumeric
character replaced by `_` + `.pdf`. -/
def specFileName (pageNum : Nat) (docbookId : String) : String :=
  "page_" ++ padStart3 (toString pageNum) ++ "_" ++ underscoreNonAlnum docbookId ++ ".pdf"

/-! ## StatusReconciler (`checkDownloadStatus`, src/unnamed/part_000) -/

/-- The `DownloadStatus` computed for one `TocItem` inside the loop of
`checkDownloadStatus` (src/unnamed/part_000, lines 54–78). -/
def statusForItem (store : Store) (item : TocItem) : DownloadStatus :=
  let fileName := checkFileName item.pageNum item.docbookId
  let entry := store.pdfFiles.lookup fileName
  let fileExists := entry.isSome
  let fileSize : Option Nat := match entry with
    | some sz => sz
    | none => none
  { docbookId := item.docbookId
    title := item.title
    pageNum := item.pageNum
    status :=
      if fileExists && (match fileSize with
                        | none => true
                        | some n => decide (1000 < n)) then "success" else "failed"
    fileName := fileName
    fileExists := fileExists
    fileSize := fileSize }

/-- `checkDownloadStatus(bookDir)` (src/unnamed/part_000, lines 38–117):
throws when `metadata.json` is absent; otherwise classifies every
table-of-contents entry, aggregates the counts and writes `output.json`
back into the directory. -/
def checkDownloadStatus (store : Store) : Except String (OutputReport × Store) :=
  match store.metadata with
  | none => .error "Metadata file not found"
  | some md =>
    let downloadStatuses := md.tableOfContents.map (statusForItem store)
    let failedItems :=
      (md.tableOfContents.filter (fun item => (statusForItem store item).status == "failed"))
    let report : OutputReport :=
      { bookNumber := md.bookNumber
        totalPages := md.totalPages
        successCount := (downloadStatuses.filter (fun s => s.status == "success")).length
        failedCount := (downloadStatuses.filter (fun s => s.status == "failed")).length
        downloadStatuses := downloadStatuses
        failedItems := failedItems }
    .ok (report, { store with output := some report })

/-- Whether the artifact for `item` exists in the store. -/
def artifactPresent (store : Store) (item : TocItem) : Bool :=
  (store.pdfFiles.lookup (checkFileName item.pageNum item.docbookId)).isSome

/-- The size the reconciler observes for `item`'s artifact: `none` when the
file is absent or its size could not be determined. -/
def artifactSize (store : Store) (item : TocItem) : Option Nat :=
  match store.pdfFiles.lookup (checkFileName item.pageNum item.docbookId) with
  | some sz => sz
  | none => none

/-- `getFailedItems(bookDir)` (src/unnamed/part_000, lines 119–129): read the
failed list from `output.json`, falling back to a fresh reconciliation run
when the report is absent.  The `Bool` records whether the fallback ran
(and hence rewrote `output.json`). -/
def getFailedItems (store : Store) : Except String (List TocItem × Store × Bool) :=
  match store.output with
  | some report => .ok (report.failedItems, store, false)
  | none =>
    match checkDownloadStatus store with
    | .ok (report, store') => .ok (report.failedItems, store', true)
    | .error e => .error e

/-! ## ChapterSegmenter (`identifyChapters`, src/merge-chapters.ts lines 57–123) -/

/-- A chapter boundary record (interface `Chapter` of the source). -/
structure Chapter where
  chapterNumber : Nat
  title : String
  startPage : Nat
  endPage : Nat
  pages : List TocItem
deriving DecidableEq, Repr

/-- JS `str.toLowerCase()` restricted to the ASCII letters the title
patterns inspect. -/
def lowerStr (s : String) : String := ⟨s.toList.map Char.toLower⟩

/-- Whether `pat` occurs as a contiguous run inside `l`
(JS `String.prototype.includes`). -/
def occursIn (pat : List Char) : List Char → Bool
  | [] => pat.isEmpty
  | c :: rest => pat.isPrefixOf (c :: rest) || occursIn pat rest

/-- `item.title.toLowerCase().includes("premessa")`
(src/merge-chapters.ts, line 68). -/
def titleMentionsPremessa (title : String) : Bool :=
  occursIn "premessa".toList (lowerStr title).toList

/-- `title.match(/^Capitolo\s+\d+/i)` (src/merge-chapters.ts, line 89):
a case-insensitive leading `Capitolo`, at least one whitespace character,
then at least one digit. -/
def isChapterStart (title : String) : Bool :=
  "capitolo".toList.isPrefixOf (title.toList.map Char.toLower) &&
    (match title.toList.drop 8 with
     | c :: rest =>
       c.isWhitespace &&
         (match rest.dropWhile Char.isWhitespace with
          | d :: _ => d.isDigit
          | [] => false)
     | [] => false)

/-- Closing the open chapter, if any, at end page `e`
(`currentChapter.endPage = …; chapters.push(currentChapter)`). -/
def closeAt (cur : Option Chapter) (e : Nat) : List Chapter :=
  match cur with
  | some ch => [{ ch with endPage := e }]
  | none => []

/-- The loop body of `identifyChapters` (src/merge-chapters.ts, lines 62–120),
as a recursion over the remaining items.  `lastPage` is
`tocItems[tocItems.length - 1].pageNum` of the whole input (used by the
final close), `totalLen` is `tocItems.length` (the tentative end page of a
freshly opened chapter), `cur` is `currentChapter` and `chNum` the running
`chapterNumber` counter. -/
def segmentGo (lastPage totalLen : Nat) : List TocItem → Option Chapter → Nat → List Chapter
  | [], cur, _ => closeAt cur lastPage
  | item :: rest, cur, chNum =>
    if titleMentionsPremessa item.title then
      closeAt cur (item.pageNum - 1) ++
        ({ chapterNumber := 0, title := item.title, startPage := item.pageNum,
           endPage := item.pageNum, pages := [item] } ::
          segmentGo lastPage totalLen rest none chNum)
    else if isChapterStart item.title then
      closeAt cur (item.pageNum - 1) ++
        segmentGo lastPage totalLen rest
          (some { chapterNumber := chNum + 1, title := item.title, startPage := item.pageNum,
                  endPage := totalLen, pages := [item] }) (chNum + 1)
    else
      match cur with
      | some ch =>
        segmentGo lastPage totalLen rest (some { ch with pages := ch.pages ++ [item] }) chNum
      | none => segmentGo lastPage totalLen rest none chNum

/-- `identifyChapters(tocItems)` (src/merge-chapters.ts, lines 57–123). -/
def identifyChapters (tocItems : List TocItem) : List Chapter :=
  segmentGo (((tocItems.getLast?).map TocItem.pageNum).getD 0) tocItems.length tocItems none 0

/-- The descriptors `identifyChapters` warns about and drops: those reaching
the orphan branch (src/merge-chapters.ts, lines 110–113), i.e. processed
while no chapter is open and matching neither title pattern.  The `Bool`
tracks whether a chapter is currently open, exactly as `currentChapter`
switches between `null` and non-`null` in the loop. -/
def orphanGo : List TocItem → Bool → List TocItem
  | [], _ => []
  | item :: rest, isOpen =>
    if titleMentionsPremessa item.title then orphanGo rest false
    else if isChapterStart item.title then orphanGo rest true
    else if isOpen then orphanGo rest true
    else item :: orphanGo rest false

/-- The descriptors `identifyChapters` keeps (the complement of `orphanGo`
along the same open/closed automaton). -/
def keptGo : List TocItem → Bool → List TocItem
  | [], _ => []
  | item :: rest, isOpen =>
    if titleMentionsPremessa item.title then item :: keptGo rest false
    else if isChapterStart item.title then item :: keptGo rest true
    else if isOpen then item :: keptGo rest true
    else keptGo rest false

/-- The orphaned descriptors of one `identifyChapters` run. -/
def segmentOrphans (tocItems : List TocItem) : List TocItem :=
  orphanGo tocItems false

/-- All pages of a chapter list, in emission order. -/
def allPages : List Chapter → List TocItem
  | [] => []
  | ch :: rest => ch.pages ++ allPages rest

/-- Invariant bound for the segmenter proof: every group the rest of the
run emits starts at or after the open chapter's start page (or after the
last processed page number `k` when no chapter is open). -/
def startLow (cur : Option Chapter) (k : Nat) : Nat :=
  match cur with
  | some ch => ch.startPage
  | none => k + 1

/-! ## ChapterMerger (`mergeChapterPages`, src/merge-chapters.ts lines 125–193)

A page artifact is modelled as the abstract list of PDF pages it contains
(`List Nat`).  The merger's storage view associates an artifact file name
with `some doc` when the file exists and `PDFDocument.load` succeeds on it,
and with `none` when the file exists but loading throws (the inner `catch`
logs and skips the page). -/

/-- The per-page loop of `mergeChapterPages` (src/merge-chapters.ts,
lines 139–168): resolve the expected artifact name, skip the page when the
file is absent (`existsSync` false) or unloadable (inner `catch`), and
append the loaded document's pages to the merged output. -/
def mergePagesGo (files : List (String × Option (List Nat))) : List TocItem → List Nat
  | [] => []
  | page :: rest =>
    match files.lookup (mergeFileName page.pageNum page.docbookId) with
    | none => mergePagesGo files rest
    | some none => mergePagesGo files rest
    | some (some doc) => doc ++ mergePagesGo files rest

/-- `mergeChapterPages` restricted to its observable output: the pages of
the merged per-chapter document, in `chapter.pages` order.  The surrounding
`try`/`catch` makes the source function total (it logs and returns on any
error), matching this model's totality. -/
def mergeChapterPages (files : List (String × Option (List Nat))) (chapter : Chapter) :
    List Nat :=
  mergePagesGo files chapter.pages

/-- The loadable document behind `page`'s expected artifact, if any. -/
def presentDoc (files : List (String × Option (List Nat))) (page : TocItem) :
    Option (List Nat) :=
  match files.lookup (mergeFileName page.pageNum page.docbookId) with
  | some (some doc) => some doc
  | _ => none

/-- Concatenation of a list of documents. -/
def concatDocs : List (List Nat) → List Nat
  | [] => []
  | d :: rest => d ++ concatDocs rest

/-! ## Title sanitization (`sanitizeFileName`, src/merge-chapters.ts lines 195–217) -/

/-- `.replace(/[àáâãäå]/g, "a")` as a character map. -/
def translitA (c : Char) : Char :=
  if c = 'à' ∨ c = 'á' ∨ c = 'â' ∨ c = 'ã' ∨ c = 'ä' ∨ c = 'å' then 'a' else c

/-- `.replace(/[èéêë]/g, "e")`. -/
def translitE (c : Char) : Char :=
  if c = 'è' ∨ c = 'é' ∨ c = 'ê' ∨ c = 'ë' then 'e' else c

/-- `.replace(/[ìíîï]/g, "i")`. -/
def translitI (c : Char) : Char :=
  if c = 'ì' ∨ c = 'í' ∨ c = 'î' ∨ c = 'ï' then 'i' else c

/-- `.replace(/[òóôõö]/g, "o")`. -/
def translitO (c : Char) : Char :=
  if c = 'ò' ∨ c = 'ó' ∨ c = 'ô' ∨ c = 'õ' ∨ c = 'ö' then 'o' else c

/-- `.replace(/[ùúûü]/g, "u")`. -/
def translitU (c : Char) : Char :=
  if c = 'ù' ∨ c = 'ú' ∨ c = 'û' ∨ c = 'ü' then 'u' else c

/-- `.replace(/[ç]/g, "c")`. -/
def translitC (c : Char) : Char :=
  if c = 'ç' then 'c' else c

/-- `.replace(/[ñ]/g, "n")`. -/
def translitN (c : Char) : Char :=
  if c = 'ñ' then 'n' else c

/-- `.replace(/[''`]/g, "")`: the source's class holds the ASCII apostrophe
(twice) and the backtick, i.e. the characters of code 39 and 96. -/
def isQuoteChar (c : Char) : Bool :=
  c.toNat = 39 || c.toNat = 96

/-- The characters the class `[^a-zA-Z0-9\s\-_.]` of
`.replace(/[^a-zA-Z0-9\s\-_.]/g, "")` keeps. -/
def keepChar (c : Char) : Bool :=
  c.isAlphanum || c.isWhitespace || c = '-' || c = '_' || c = '.'

/-- `.replace(/\s+/g, "_")`: every maximal run of whitespace becomes one
underscore. -/
def collapseWs : List Char → List Char
  | [] => []
  | [c] => if c.isWhitespace then ['_'] else [c]
  | c₁ :: c₂ :: rest =>
    if c₁.isWhitespace && c₂.isWhitespace then collapseWs (c₂ :: rest)
    else (if c₁.isWhitespace then '_' else c₁) :: collapseWs (c₂ :: rest)

/-- `.replace(/^_+|_+$/g, "")`: drop the leading and the trailing run of
underscores. -/
def trimUnderscores (l : List Char) : List Char :=
  ((l.dropWhile (· == '_')).reverse.dropWhile (· == '_')).reverse

/-- `sanitizeFileName(title)` (src/merge-chapters.ts, lines 195–217):
transliterate the accented classes, strip apostrophes and backticks, drop
everything outside `[a-zA-Z0-9\s\-_.]`, collapse whitespace runs to single
underscores, trim the underscore ends, lowercase, truncate to 80. -/
def sanitizeFileName (title : String) : String :=
  ⟨(trimUnderscores (collapseWs
      (((((((((title.toList.map translitA).map translitE).map translitI).map
        translitO).map translitU).map translitC).map translitN).filter
          (fun c => !(isQuoteChar c))).filter keepChar))).map Char.toLower |>.take 80⟩

/-- The claim's sanitization pipeline, formalized literally: transliterate
accented characters to their base form, strip quote/apostrophe characters,
remove characters outside `[A-Za-z0-9 _.-]` (a class holding the space
character but no other whitespace), collapse whitespace runs to single
underscores, trim leading/trailing underscores, lowercase, truncate to 80. -/
def translitSpec (c : Char) : Char :=
  if c = 'à' ∨ c = 'á' ∨ c = 'â' ∨ c = 'ã' ∨ c = 'ä' ∨ c = 'å' then 'a'
  else if c = 'è' ∨ c = 'é' ∨ c = 'ê' ∨ c = 'ë' then 'e'
  else if c = 'ì' ∨ c = 'í' ∨ c = 'î' ∨ c = 'ï' then 'i'
  else if c = 'ò' ∨ c = 'ó' ∨ c = 'ô' ∨ c = 'õ' ∨ c = 'ö' then 'o'
  else if c = 'ù' ∨ c = 'ú' ∨ c = 'û' ∨ c = 'ü' then 'u'
  else if c = 'ç' then 'c'
  else if c = 'ñ' then 'n'
  else c

/-- The claim's removal step: keep only `[A-Za-z0-9 _.-]` (space, but not
tab or newline). -/
def keepCharClaim (c : Char) : Bool :=
  c.isAlphanum || c = ' ' || c = '_' || c = '.' || c = '-'

/-- The sanitizer exactly as the claim describes it. -/
def sanitizeClaim (title : String) : String :=
  ⟨(trimUnderscores (collapseWs
      (((title.toList.map translitSpec).filter (fun c => !(isQuoteChar c))).filter
        keepCharClaim))).map Char.toLower |>.take 80⟩

/-- The amended removal step: keep `[A-Za-z0-9 _.-]` and additionally every
whitespace character (which the next step collapses to underscores), as the
source's class `[^a-zA-Z0-9\s\-_.]` does. -/
def keepCharAmended (c : Char) : Bool :=
  c.isAlphanum || c = ' ' || c = '_' || c = '.' || c = '-' || c.isWhitespace

/-- The claim's pipeline with only the removal step amended. -/
def sanitizeAmended (title : String) : String :=
  ⟨(trimUnderscores (collapseWs
      (((title.toList.map translitSpec).filter (fun c => !(isQuoteChar c))).filter
        keepCharAmended))).map Char.toLower |>.take 80⟩

/-! ## BatchDownloadCoordinator (`downloadPagesAsPDF` /
`downloadPagesInBatches`, src/unnamed/part_001 lines 220–305 and 349–386) -/

/-- The slicing loop of `downloadPagesInBatches`
(`for (let i = 0; i < tocItems.length; i += batchSize)` with
`batchSize = 10`, src/unnamed/part_001 lines 355–385), via a fuel argument
for structural recursion; `batchSlices` supplies fuel `items.length`, which
the loop never exhausts. -/
def batchSlicesGo : Nat → List TocItem → List (List TocItem)
  | _, [] => []
  | 0, _ :: _ => []
  | fuel + 1, item :: rest => (item :: rest.take 9) :: batchSlicesGo fuel (rest.drop 9)

/-- The batches `downloadPagesInBatches` processes, in submission order. -/
def batchSlices (items : List TocItem) : List (List TocItem) :=
  batchSlicesGo items.length items

/-- The capture schedule of one `downloadPagesAsPDF` run. -/
structure DownloadPlan where
  firstSequential : Option TocItem
  batches : List (List TocItem)
deriving DecidableEq, Repr

/-- The schedule `downloadPagesAsPDF` drives (src/unnamed/part_001,
lines 268–285): the first descriptor is captured sequentially
(`downloadSinglePage(page, tocItems[0], …)`), and when more than one page
remains, `tocItems.slice(1)` is handed to `downloadPagesInBatches`.
The source indexes `tocItems[0]` unconditionally and is only called with a
non-empty list; `head?` returns `none` on the unreachable empty input. -/
def downloadPagesPlan (tocItems : List TocItem) : DownloadPlan :=
  { firstSequential := tocItems.head?
    batches := if 1 < tocItems.length then batchSlices (tocItems.drop 1) else [] }

/-! ## RetryCoordinator (`retryFailedDownloads`, src/unnamed/part_001
lines 725–845) -/

/-- Reconstruction of the full descriptor context for each failed id
(src/unnamed/part_001, lines 756–821): look the id up in `output.json`'s
`downloadStatuses`, falling back to `metadata.json`'s `tableOfContents`,
falling back to synthesized placeholders.  The JS `item?.title || default`
also replaces an empty title by the default, and `item?.pageNum || 0`
leaves a zero page number at `0`. -/
def reconstructTocItems (store : Store) (failedIds : List String) : List TocItem :=
  match store.output with
  | some report =>
    failedIds.map (fun id =>
      match report.downloadStatuses.find? (fun s => s.docbookId == id) with
      | some s =>
        { docbookId := id
          title := if s.title = "" then "Unknown Title (" ++ id ++ ")" else s.title
          pageNum := s.pageNum }
      | none => { docbookId := id, title := "Unknown Title (" ++ id ++ ")", pageNum := 0 })
  | none =>
    match store.metadata with
    | some md =>
      failedIds.map (fun id =>
        match md.tableOfContents.find? (fun t => t.docbookId == id) with
        | some t =>
          { docbookId := id
            title := if t.title = "" then "Unknown Title (" ++ id ++ ")" else t.title
            pageNum := t.pageNum }
        | none => { docbookId := id, title := "Unknown Title (" ++ id ++ ")", pageNum := 0 })
    | none =>
      ((List.range failedIds.length).zip failedIds).map (fun p =>
        { docbookId := p.2, title := "Retry Page " ++ toString (p.1 + 1), pageNum := p.1 + 1 })

/-- The observable effects of one `retryFailedDownloads` run.  The actual
artifact bytes are produced by the external capture adapter (browser
automation, out of the core's scope); the model records which captures the
run drives.  `store` is the storage state the coordinator itself leaves
behind. -/
structure RetryEffects where
  reportRegenerated : Bool
  browserLaunched : Bool
  captureAttempts : List TocItem
  store : Store
deriving DecidableEq, Repr

/-- `retryFailedDownloads(bookDir, bookId?)` (src/unnamed/part_001,
lines 725–845): read the failed subset via `getFailedItems`; when it is
empty, return before logging in or touching anything; otherwise log in,
reconstruct the descriptors and drive `downloadPagesAsPDFForRetry` over
exactly the reconstructed failed subset. -/
def retryFailedDownloads (store : Store) : Except String RetryEffects :=
  match getFailedItems store with
  | .error e => .error e
  | .ok (failedItems, store₁, ranCheck) =>
    if failedItems.length = 0 then
      .ok { reportRegenerated := ranCheck, browserLaunched := false,
            captureAttempts := [], store := store₁ }
    else
      let failedIds := failedItems.map TocItem.docbookId
      let tocItems := reconstructTocItems store₁ failedIds
      .ok { reportRegenerated := ranCheck, browserLaunched := true,
            captureAttempts := tocItems, store := store₁ }

/-! ## Concrete fixtures used by scenario theorems and witnesses -/

/-- A one-page book whose single artifact exists with size 500 bytes. -/
def ex1Item : TocItem := { docbookId := "ch1", title := "Capitolo 1 Origini", pageNum := 1 }

/-- Metadata of the one-page book. -/
def ex1Md : Metadata :=
  { bookNumber := "b500", extractedAt := "t0", totalPages := 1, tableOfContents := [ex1Item] }

/-- Store of the one-page book: the artifact exists but is 500 bytes. -/
def ex1Store : Store :=
  { metadata := some ex1Md, output := none,
    pdfFiles := [(checkFileName 1 "ch1", some 500)] }

/-- The report `checkDownloadStatus` produces on `ex1Store`. -/
def ex1Report : OutputReport :=
  { bookNumber := "b500", totalPages := 1, successCount := 0, failedCount := 1,
    downloadStatuses := [statusForItem ex1Store ex1Item], failedItems := [ex1Item] }

/-- `ex1Store` after the report is persisted. -/
def ex1Store' : Store := { ex1Store with output := some ex1Report }

/-- The five-page table of contents of the segmentation scenario. -/
def premPage : TocItem := { docbookId := "prem", title := "Premessa", pageNum := 1 }

/-- The `Capitolo 1` page of the segmentation scenario. -/
def capPage : TocItem := { docbookId := "cap1", title := "Capitolo 1", pageNum := 2 }

/-- First plain section page. -/
def secPage1 : TocItem := { docbookId := "s1", title := "1.1 Le origini", pageNum := 3 }

/-- Second plain section page. -/
def secPage2 : TocItem := { docbookId := "s2", title := "1.2 Gli sviluppi", pageNum := 4 }

/-- Third plain section page. -/
def secPage3 : TocItem := { docbookId := "s3", title := "1.3 Conclusioni", pageNum := 5 }

/-- The five-page manifest: Premessa, Capitolo 1, three plain sections. -/
def toc5 : List TocItem := [premPage, capPage, secPage1, secPage2, secPage3]

/-- A 12-page table of contents for the batching scenario. -/
def toc12 : List TocItem :=
  [{ docbookId := "d01", title := "Sezione 1", pageNum := 1 },
   { docbookId := "d02", title := "Sezione 2", pageNum := 2 },
   { docbookId := "d03", title := "Sezione 3", pageNum := 3 },
   { docbookId := "d04", title := "Sezione 4", pageNum := 4 },
   { docbookId := "d05", title := "Sezione 5", pageNum := 5 },
   { docbookId := "d06", title := "Sezione 6", pageNum := 6 },
   { docbookId := "d07", title := "Sezione 7", pageNum := 7 },
   { docbookId := "d08", title := "Sezione 8", pageNum := 8 },
   { docbookId := "d09", title := "Sezione 9", pageNum := 9 },
   { docbookId := "d10", title := "Sezione 10", pageNum := 10 },
   { docbookId := "d11", title := "Sezione 11", pageNum := 11 },
   { docbookId := "d12", title := "Sezione 12", pageNum := 12 }]

/-- First page of the merge scenario's chapter. -/
def mPage1 : TocItem := { docbookId := "m1", title := "Capitolo 1", pageNum := 1 }

/-- Second page of the merge scenario's chapter (its artifact is missing). -/
def mPage2 : TocItem := { docbookId := "m2", title := "1.1 Sezione", pageNum := 2 }

/-- Third page of the merge scenario's chapter. -/
def mPage3 : TocItem := { docbookId := "m3", title := "1.2 Sezione", pageNum := 3 }

/-- The three-page chapter of the merge scenario. -/
def mChapter : Chapter :=
  { chapterNumber := 1, title := "Capitolo 1", startPage := 1, endPage := 3,
    pages := [mPage1, mPage2, mPage3] }

/-- Merge-scenario storage: artifacts for pages 1 and 3 exist (one PDF page
each), the artifact of page 2 is absent. -/
def mFiles : List (String × Option (List Nat)) :=
  [(mergeFileName 1 "m1", some [1]), (mergeFileName 3 "m3", some [3])]

/-- A report with an empty failed list, for the retry no-op scenario. -/
def ex7Report : OutputReport :=
  { bookNumber := "b", totalPages := 2, successCount := 2, failedCount := 0,
    downloadStatuses := [], failedItems := [] }

/-- A store holding `ex7Report` as its persisted `output.json`. -/
def ex7Store : Store :=
  { metadata := none, output := some ex7Report, pdfFiles := [] }

/-- A duplicated descriptor: occurs once orphaned (between the Premessa
group and the chapter marker) and once inside the chapter. -/
def dupItem : TocItem := { docbookId := "dup", title := "Testo sparso", pageNum := 2 }

/-- A table of contents holding `dupItem` twice. -/
def tocDup : List TocItem := [premPage, dupItem, capPage, dupItem]

/-- A plain descriptor sitting between a Premessa group and the next
chapter marker. -/
def orphanItem : TocItem := { docbookId := "orph", title := "Nota introduttiva", pageNum := 2 }

/-- A table of contents with distinct page numbers whose second descriptor
is orphaned: Premessa, a plain descriptor, a chapter marker, a section. -/
def orphanToc : List TocItem :=
  [premPage, orphanItem,
   { docbookId := "c1", title := "Capitolo 1", pageNum := 3 },
   { docbookId := "s", title := "1.1 Sezione", pageNum := 4 }]

/-! ## Theorems -/

/-- C3: the artifact file name is a pure function of `(pageNum, id)` —
`page_` + the page number zero-padded to 3 digits + `_` + the id with every
non-alphanumeric character replaced by `_` + `.pdf` — and the three
embeddings of the scheme in the reconciler (`checkDownloadStatus`), the
merger (`mergeChapterPages`) and the cleanup tool (`getExpectedFiles`)
agree on every `(pageNum, id)` pair. -/
theorem naming_scheme_agrees (pageNum : Nat) (docbookId : String) :
    checkFileName pageNum docbookId = mergeFileName pageNum docbookId ∧
    mergeFileName pageNum docbookId = cleanupFileName pageNum docbookId ∧
    checkFileName pageNum docbookId = specFileName pageNum docbookId :=
  ⟨rfl, rfl, rfl⟩

/-- C5: on the five-page manifest `[Premessa, Capitolo 1, three plain
sections]`, `identifyChapters` returns exactly two groups: the standalone
chapter-0 Premessa group and the chapter-1 group holding the Capitolo page
followed by the three section pages. -/
theorem segment_premessa_scenario :
    identifyChapters toc5 =
      [{ chapterNumber := 0, title := "Premessa", startPage := 1, endPage := 1,
         pages := [premPage] },
       { chapterNumber := 1, title := "Capitolo 1", startPage := 2, endPage := 5,
         pages := [capPage, secPage1, secPage2, secPage3] }] := by
  decide

/-- Helper for C8: the merger's per-page loop concatenates exactly the
loadable artifacts, in pages order. -/
theorem mergePagesGo_eq_filterMap (files : List (String × Option (List Nat)))
    (pages : List TocItem) :
    mergePagesGo files pages = concatDocs (pages.filterMap (presentDoc files)) := by
  induction pages with
  | nil => rfl
  | cons page rest ih =>
    simp only [mergePagesGo, List.filterMap_cons, presentDoc]
    cases h : files.lookup (mergeFileName page.pageNum page.docbookId) with
    | none => simpa using ih
    | some doc =>
      cases doc with
      | none => simpa using ih
      | some d => simp [concatDocs, ih]

/-- C8: for every chapter group, the merger skips every page whose expected
artifact is absent (or unloadable) and concatenates the documents that are
present, in pages-array order; in particular, for a 3-page chapter whose
page-2 artifact is missing, the merged output holds the pages of artifacts
1 and 3 only.  The model is a total function: a missing page artifact never
aborts the merge. -/
theorem merge_skips_missing :
    (∀ (files : List (String × Option (List Nat))) (chapter : Chapter),
        mergeChapterPages files chapter =
          concatDocs (chapter.pages.filterMap (presentDoc files))) ∧
    mergeChapterPages mFiles mChapter = [1, 3] := by
  refine ⟨fun files chapter => mergePagesGo_eq_filterMap files chapter.pages, ?_⟩
  decide

/-- C7: when `output.json` exists and its failed list is empty,
`retryFailedDownloads` returns successfully before logging in: it launches
no browser, drives no capture, regenerates no report and leaves the store
untouched. -/
theorem retry_empty_noop (store : Store) (report : OutputReport)
    (hout : store.output = some report) (hempty : report.failedItems = []) :
    retryFailedDownloads store =
      .ok { reportRegenerated := false, browserLaunched := false,
            captureAttempts := [], store := store } := by
  unfold retryFailedDownloads getFailedItems
  rw [hout]
  simp [hempty]

/-- Witness for C7 at a concrete store. -/
theorem retry_empty_noop_witness :
    retryFailedDownloads ex7Store =
      .ok { reportRegenerated := false, browserLaunched := false,
            captureAttempts := [], store := ex7Store } :=
  retry_empty_noop ex7Store ex7Report rfl rfl

/-- Helper for C1: the per-item classification rule, in isolation. -/
theorem statusForItem_success_iff (store : Store) (item : TocItem) :
    (statusForItem store item).status = "success" ↔
      artifactPresent store item = true ∧
        (artifactSize store item = none ∨
          ∃ n, artifactSize store item = some n ∧ 1000 < n) := by
  unfold statusForItem artifactPresent artifactSize
  cases h : store.pdfFiles.lookup (checkFileName item.pageNum item.docbookId) with
  | none => simp [h]
  | some sz =>
    cases sz with
    | none => simp [h]
    | some n =>
      by_cases hn : 1000 < n
      · simp [h, hn]
      · simp [h, hn]

/-- C1: `checkDownloadStatus` classifies each table-of-contents entry —
its report's statuses are exactly the per-item classifications, in manifest
order — and an entry is `success` if and only if its artifact exists and
its size is either undeterminable or strictly above 1000 bytes. -/
theorem reconciler_success_iff (store : Store) (md : Metadata) (report : OutputReport)
    (store' : Store) (hmd : store.metadata = some md)
    (hrun : checkDownloadStatus store = .ok (report, store')) :
    report.downloadStatuses = md.tableOfContents.map (statusForItem store) ∧
    ∀ item ∈ md.tableOfContents,
      ((statusForItem store item).status = "success" ↔
        artifactPresent store item = true ∧
          (artifactSize store item = none ∨
            ∃ n, artifactSize store item = some n ∧ 1000 < n)) := by
  unfold checkDownloadStatus at hrun
  rw [hmd] at hrun
  simp only [Except.ok.injEq, Prod.mk.injEq] at hrun
  refine ⟨?_, fun item _ => statusForItem_success_iff store item⟩
  rw [← hrun.1]

/-- Witness for C1: the 500-byte scenario.  The artifact of the single
entry exists with size 500, and the entry is classified `failed` even
though `fileExists` is true — instantiating the classification rule shows
`success` would force a size above 1000. -/
theorem reconciler_success_iff_witness :
    (statusForItem ex1Store ex1Item).fileExists = true ∧
    artifactSize ex1Store ex1Item = some 500 ∧
    (statusForItem ex1Store ex1Item).status = "failed" ∧
    ¬ (statusForItem ex1Store ex1Item).status = "success" := by
  have h := reconciler_success_iff ex1Store ex1Md ex1Report ex1Store' rfl rfl
  refine ⟨by decide, by decide, by decide, fun hs => ?_⟩
  have h500 : artifactSize ex1Store ex1Item = some 500 := by decide
  rcases (h.2 ex1Item (by decide)).mp hs with ⟨-, hnone | ⟨n, hn, hlt⟩⟩
  · rw [h500] at hnone
    exact Option.noConfusion hnone
  · rw [h500] at hn
    cases hn
    omega

/-- Helper for C2: every status the reconciler emits is `success` or
`failed`, so the two filtered counts partition the list. -/
theorem filter_success_failed_length (l : List DownloadStatus)
    (h : ∀ s ∈ l, s.status = "success" ∨ s.status = "failed") :
    (l.filter (fun s => s.status == "success")).length +
      (l.filter (fun s => s.status == "failed")).length = l.length := by
  induction l with
  | nil => rfl
  | cons s rest ih =>
    have hrest := ih (fun t ht => h t (List.mem_cons_of_mem s ht))
    rcases h s (List.mem_cons_self s rest) with hs | hs
    · simp [List.filter_cons, hs]
      omega
    · simp [List.filter_cons, hs]
      omega

/-- C2: for every manifest satisfying the invariant
`totalPages = length tableOfContents`, the report of `checkDownloadStatus`
satisfies `successCount + failedCount = totalPages`. -/
theorem reconciler_counts (store : Store) (md : Metadata) (report : OutputReport)
    (store' : Store) (hmd : store.metadata = some md)
    (hinv : md.totalPages = md.tableOfContents.length)
    (hrun : checkDownloadStatus store = .ok (report, store')) :
    report.successCount + report.failedCount = report.totalPages := by
  unfold checkDownloadStatus at hrun
  rw [hmd] at hrun
  simp only [Except.ok.injEq, Prod.mk.injEq] at hrun
  rw [← hrun.1]
  simp only []
  rw [filter_success_failed_length, List.length_map, ← hinv]
  intro s hs
  rcases List.mem_map.mp hs with ⟨item, -, rfl⟩
  unfold statusForItem
  cases h : store.pdfFiles.lookup (checkFileName item.pageNum item.docbookId) with
  | none => simp [h]
  | some sz =>
    cases sz with
    | none => simp [h]
    | some n =>
      by_cases hn : 1000 < n
      · simp [h, hn]
      · simp [h, hn]

/-- Witness for C2 at the concrete one-page store. -/
theorem reconciler_counts_witness :
    ex1Report.successCount + ex1Report.failedCount = ex1Report.totalPages :=
  reconciler_counts ex1Store ex1Md ex1Report ex1Store' rfl rfl rfl

/-- Counterexample to C4: on a 12-page manifest the coordinator captures
the first page sequentially and then slices the remaining 11 pages into a
batch of 10 followed by a batch of 1 (`slice(i, i + batchSize)` with
`batchSize = 10`), not into a batch of 9 followed by a batch of 2. -/
theorem batch_plan_12_counterexample :
    (downloadPagesPlan toc12).firstSequential = toc12.head? ∧
    (downloadPagesPlan toc12).batches.map List.length = [10, 1] ∧
    ¬ (downloadPagesPlan toc12).batches.map List.length = [9, 2] := by
  refine ⟨rfl, by decide, ?_⟩
  intro h
  rw [show (downloadPagesPlan toc12).batches.map List.length = [10, 1] from by decide] at h
  exact absurd h (by decide)

/-- C4 as amended: for every 12-page manifest with the default batch size
of 10, the coordinator performs one sequential capture of the first page,
then one batch of 10 concurrent captures, then one batch of 1 concurrent
capture (the 11 pages remaining after the sequential first one, sliced into
consecutive groups of at most 10). -/
theorem batch_plan_12 (toc : List TocItem) (h : toc.length = 12) :
    (downloadPagesPlan toc).firstSequential = toc.head? ∧
    (downloadPagesPlan toc).batches.map List.length = [10, 1] := by
  rcases toc with - | ⟨a1, toc⟩
  · simp at h
  rcases toc with - | ⟨a2, toc⟩
  · simp at h
  rcases toc with - | ⟨a3, toc⟩
  · simp at h
  rcases toc with - | ⟨a4, toc⟩
  · simp at h
  rcases toc with - | ⟨a5, toc⟩
  · simp at h
  rcases toc with - | ⟨a6, toc⟩
  · simp at h
  rcases toc with - | ⟨a7, toc⟩
  · simp at h
  rcases toc with - | ⟨a8, toc⟩
  · simp at h
  rcases toc with - | ⟨a9, toc⟩
  · simp at h
  rcases toc with - | ⟨a10, toc⟩
  · simp at h
  rcases toc with - | ⟨a11, toc⟩
  · simp at h
  rcases toc with - | ⟨a12, toc⟩
  · simp at h
  have hlen : toc.length = 0 := by
    simp only [List.length_cons] at h
    omega
  have hrest : toc = [] := List.length_eq_zero.mp hlen
  subst hrest
  exact ⟨rfl, rfl⟩

/-- Witness for the amended C4 at the concrete 12-page manifest. -/
theorem batch_plan_12_witness :
    toc12.length = 12 ∧ (downloadPagesPlan toc12).batches.map List.length = [10, 1] :=
  ⟨rfl, (batch_plan_12 toc12 rfl).2⟩

/-- Unfolding lemma: the segmenter's step on a Premessa-titled item. -/
theorem segmentGo_cons_prem (lastPage totalLen : Nat) (item : TocItem)
    (rest : List TocItem) (cur : Option Chapter) (chNum : Nat)
    (hp : titleMentionsPremessa item.title = true) :
    segmentGo lastPage totalLen (item :: rest) cur chNum =
      closeAt cur (item.pageNum - 1) ++
        ({ chapterNumber := 0, title := item.title, startPage := item.pageNum,
           endPage := item.pageNum, pages := [item] } ::
          segmentGo lastPage totalLen rest none chNum) := by
  simp [segmentGo, hp]

/-- Unfolding lemma: the segmenter's step on a chapter-start item. -/
theorem segmentGo_cons_cap (lastPage totalLen : Nat) (item : TocItem)
    (rest : List TocItem) (cur : Option Chapter) (chNum : Nat)
    (hp : titleMentionsPremessa item.title = false)
    (hc : isChapterStart item.title = true) :
    segmentGo lastPage totalLen (item :: rest) cur chNum =
      closeAt cur (item.pageNum - 1) ++
        segmentGo lastPage totalLen rest
          (some { chapterNumber := chNum + 1, title := item.title,
                  startPage := item.pageNum, endPage := totalLen, pages := [item] })
          (chNum + 1) := by
  simp [segmentGo, hp, hc]

/-- Unfolding lemma: the segmenter's step on a plain item while a chapter
is open. -/
theorem segmentGo_cons_plain_open (lastPage totalLen : Nat) (item : TocItem)
    (rest : List TocItem) (ch : Chapter) (chNum : Nat)
    (hp : titleMentionsPremessa item.title = false)
    (hc : isChapterStart item.title = false) :
    segmentGo lastPage totalLen (item :: rest) (some ch) chNum =
      segmentGo lastPage totalLen rest (some { ch with pages := ch.pages ++ [item] }) chNum := by
  simp [segmentGo, hp, hc]

/-- Unfolding lemma: the segmenter's step on a plain item while no chapter
is open (the orphan branch). -/
theorem segmentGo_cons_plain_none (lastPage totalLen : Nat) (item : TocItem)
    (rest : List TocItem) (chNum : Nat)
    (hp : titleMentionsPremessa item.title = false)
    (hc : isChapterStart item.title = false) :
    segmentGo lastPage totalLen (item :: rest) none chNum =
      segmentGo lastPage totalLen rest none chNum := by
  simp [segmentGo, hp, hc]

/-- Helper for C6: the segmenter's loop invariant.  When the remaining
items carry the contiguous page numbers `k+1, k+2, …` and any open chapter
started at or before page `k`, the emitted groups form a `<`-chain of page
ranges, and every emitted group starts at or after `startLow cur k`. -/
theorem segmentGo_chain (totalLen : Nat) (items : List TocItem) :
    ∀ (k chNum : Nat) (cur : Option Chapter),
      (∀ j (hj : j < items.length), (items.get ⟨j, hj⟩).pageNum = k + j + 1) →
      (∀ ch, cur = some ch → ch.startPage ≤ k) →
      List.Pairwise (fun a b => a.endPage < b.startPage)
          (segmentGo (k + items.length) totalLen items cur chNum) ∧
        ∀ c ∈ segmentGo (k + items.length) totalLen items cur chNum,
          startLow cur k ≤ c.startPage := by
  induction items with
  | nil =>
    intro k chNum cur hpages hcur
    cases cur with
    | none => exact ⟨List.Pairwise.nil, by simp [segmentGo, closeAt]⟩
    | some ch =>
      refine ⟨?_, ?_⟩
      · simp [segmentGo, closeAt]
      · intro c hc
        simp only [segmentGo, closeAt, List.mem_singleton] at hc
        subst hc
        exact le_refl _
  | cons item rest ih =>
    intro k chNum cur hpages hcur
    have hitem : item.pageNum = k + 1 := by
      have h0 := hpages 0 (by simp)
      simpa using h0
    have hlen : k + (item :: rest).length = (k + 1) + rest.length := by
      simp only [List.length_cons]
      omega
    rw [hlen]
    have hpages' : ∀ j (hj : j < rest.length),
        (rest.get ⟨j, hj⟩).pageNum = (k + 1) + j + 1 := by
      intro j hj
      have hj' : j + 1 < (item :: rest).length := by
        simp only [List.length_cons]
        omega
      have h1 := hpages (j + 1) hj'
      have h2 : ((item :: rest).get ⟨j + 1, hj'⟩) = rest.get ⟨j, hj⟩ := rfl
      rw [h2] at h1
      rw [h1]
      omega
    rcases Bool.eq_false_or_eq_true (titleMentionsPremessa item.title) with hp | hp
    · -- premessa item
      rw [segmentGo_cons_prem _ _ _ _ _ _ hp, hitem]
      have hrec := ih (k + 1) chNum none hpages' (by simp)
      have hreclow : ∀ c ∈ segmentGo ((k + 1) + rest.length) totalLen rest none chNum,
          k + 2 ≤ c.startPage := by
        intro c hcmem
        simpa [startLow] using hrec.2 c hcmem
      have hpairG : List.Pairwise (fun a b => a.endPage < b.startPage)
          ({ chapterNumber := 0, title := item.title, startPage := k + 1,
             endPage := k + 1, pages := [item] } ::
            segmentGo ((k + 1) + rest.length) totalLen rest none chNum) := by
        refine List.pairwise_cons.mpr ⟨fun c hcmem => ?_, hrec.1⟩
        have := hreclow c hcmem
        dsimp only
        omega
      cases cur with
      | none =>
        simp only [closeAt, List.nil_append]
        refine ⟨hpairG, fun c hcmem => ?_⟩
        simp only [List.mem_cons] at hcmem
        simp only [startLow]
        rcases hcmem with rfl | hcmem
        · exact le_refl _
        · have := hreclow c hcmem
          omega
      | some ch =>
        have hch : ch.startPage ≤ k := hcur ch rfl
        simp only [closeAt, List.singleton_append]
        refine ⟨List.pairwise_cons.mpr ⟨fun c hcmem => ?_, hpairG⟩, fun c hcmem => ?_⟩
        · simp only [List.mem_cons] at hcmem
          simp only [Nat.add_sub_cancel]
          rcases hcmem with rfl | hcmem
          · dsimp only
            omega
          · have := hreclow c hcmem
            omega
        · simp only [List.mem_cons] at hcmem
          simp only [startLow]
          rcases hcmem with rfl | hcmem
          · exact le_refl _
          · rcases hcmem with rfl | hcmem
            · dsimp only
              omega
            · have := hreclow c hcmem
              omega
    · rcases Bool.eq_false_or_eq_true (isChapterStart item.title) with hc | hc
      · -- chapter start
        rw [segmentGo_cons_cap _ _ _ _ _ _ hp hc, hitem]
        have hnew : ∀ ch', (some { chapterNumber := chNum + 1, title := item.title,
                                   startPage := k + 1, endPage := totalLen,
                                   pages := [item] } : Option Chapter) =
            some ch' → ch'.startPage ≤ k + 1 := by
          intro ch' h'
          cases h'
          exact le_refl _
        have hrec := ih (k + 1) (chNum + 1)
          (some { chapterNumber := chNum + 1, title := item.title,
                  startPage := k + 1, endPage := totalLen, pages := [item] })
          hpages' hnew
        have hreclow : ∀ c ∈ segmentGo ((k + 1) + rest.length) totalLen rest
            (some { chapterNumber := chNum + 1, title := item.title,
                    startPage := k + 1, endPage := totalLen, pages := [item] })
            (chNum + 1), k + 1 ≤ c.startPage := by
          intro c hcmem
          simpa [startLow] using hrec.2 c hcmem
        cases cur with
        | none =>
          simp only [closeAt, List.nil_append]
          refine ⟨hrec.1, fun c hcmem => ?_⟩
          simp only [startLow]
          exact hreclow c hcmem
        | some ch =>
          have hch : ch.startPage ≤ k := hcur ch rfl
          simp only [closeAt, List.singleton_append]
          refine ⟨List.pairwise_cons.mpr ⟨fun c hcmem => ?_, hrec.1⟩, fun c hcmem => ?_⟩
          · have := hreclow c hcmem
            simp only [Nat.add_sub_cancel]
            omega
          · simp only [List.mem_cons] at hcmem
            simp only [startLow]
            rcases hcmem with rfl | hcmem
            · exact le_refl _
            · have := hreclow c hcmem
              omega
      · -- plain item: appended to the open chapter or dropped
        cases cur with
        | none =>
          rw [segmentGo_cons_plain_none _ _ _ _ _ hp hc]
          have hrec := ih (k + 1) chNum none hpages' (by simp)
          refine ⟨hrec.1, fun c hcmem => ?_⟩
          have hlow := hrec.2 c hcmem
          simp only [startLow] at hlow ⊢
          omega
        | some ch =>
          rw [segmentGo_cons_plain_open _ _ _ _ _ _ hp hc]
          have hch : ch.startPage ≤ k := hcur ch rfl
          have hrec := ih (k + 1) chNum (some { ch with pages := ch.pages ++ [item] })
            hpages' (by intro ch' h'; cases h'; simpa using Nat.le_succ_of_le hch)
          refine ⟨hrec.1, fun c hcmem => ?_⟩
          have hlow := hrec.2 c hcmem
          simpa [startLow] using hlow

/-- C6: on every table of contents whose page numbers are the contiguous
range `1, 2, …, n` (the manifest invariant), no two chapter groups
returned by `identifyChapters` have overlapping `[startPage, endPage]`
ranges. -/
theorem segment_ranges_disjoint (toc : List TocItem)
    (hpages : ∀ j (hj : j < toc.length), (toc.get ⟨j, hj⟩).pageNum = j + 1) :
    List.Pairwise (fun a b => a.endPage < b.startPage ∨ b.endPage < a.startPage)
      (identifyChapters toc) := by
  rcases eq_or_ne toc [] with rfl | hne
  · exact List.Pairwise.nil
  · have hlast : ((toc.getLast?).map TocItem.pageNum).getD 0 = toc.length := by
      rw [List.getLast?_eq_getLast_of_ne_nil hne]
      have hlt : toc.length - 1 < toc.length := by
        have : 0 < toc.length := List.length_pos.mpr hne
        omega
      have hget := hpages (toc.length - 1) hlt
      rw [List.getLast_eq_getElem toc hne]
      simp only [Option.map_some', Option.getD_some]
      have hgetelem : toc.get ⟨toc.length - 1, hlt⟩ = toc[toc.length - 1] := rfl
      rw [hgetelem] at hget
      rw [hget]
      have : 0 < toc.length := List.length_pos.mpr hne
      omega
    have hpages0 : ∀ j (hj : j < toc.length), (toc.get ⟨j, hj⟩).pageNum = 0 + j + 1 := by
      intro j hj
      rw [hpages j hj]
      omega
    have haux := segmentGo_chain toc.length toc 0 0 none hpages0 (by simp)
    have hzero : 0 + toc.length = toc.length := Nat.zero_add _
    rw [hzero] at haux
    unfold identifyChapters
    rw [hlast]
    exact haux.1.imp (fun h => Or.inl h)

/-- Witness for C6 at the five-page scenario manifest. -/
theorem segment_ranges_disjoint_witness :
    (∀ j (hj : j < toc5.length), (toc5.get ⟨j, hj⟩).pageNum = j + 1) ∧
    List.Pairwise (fun a b => a.endPage < b.startPage ∨ b.endPage < a.startPage)
      (identifyChapters toc5) := by
  have hp : ∀ j (hj : j < toc5.length), (toc5.get ⟨j, hj⟩).pageNum = j + 1 := by decide
  exact ⟨hp, segment_ranges_disjoint toc5 hp⟩

/-- Helper for C10: a page of some emitted group is a page of the run. -/
theorem mem_allPages_of_mem {chs : List Chapter} {ch : Chapter} {x : TocItem}
    (hch : ch ∈ chs) (hx : x ∈ ch.pages) : x ∈ allPages chs := by
  induction chs with
  | nil => cases hch
  | cons c rest ih =>
    simp only [allPages, List.mem_append]
    rcases List.mem_cons.mp hch with rfl | h
    · exact Or.inl hx
    · exact Or.inr (ih h)

/-- Helper for C10: the pages of the groups `segmentGo` emits are the open
chapter's pages followed by the descriptors the open/closed automaton
keeps. -/
theorem segmentGo_allPages (lastPage totalLen : Nat) (items : List TocItem) :
    ∀ (cur : Option Chapter) (chNum : Nat),
      allPages (segmentGo lastPage totalLen items cur chNum) =
        (match cur with | some ch => ch.pages | none => []) ++ keptGo items cur.isSome := by
  induction items with
  | nil =>
    intro cur chNum
    cases cur with
    | none => simp [segmentGo, closeAt, allPages, keptGo]
    | some ch => simp [segmentGo, closeAt, allPages, keptGo]
  | cons item rest ih =>
    intro cur chNum
    rcases Bool.eq_false_or_eq_true (titleMentionsPremessa item.title) with hp | hp
    · rw [segmentGo_cons_prem _ _ _ _ _ _ hp]
      cases cur with
      | none => simp [closeAt, allPages, ih, keptGo, hp]
      | some ch => simp [closeAt, allPages, ih, keptGo, hp]
    · rcases Bool.eq_false_or_eq_true (isChapterStart item.title) with hc | hc
      · rw [segmentGo_cons_cap _ _ _ _ _ _ hp hc]
        cases cur with
        | none => simp [closeAt, allPages, ih, keptGo, hp, hc]
        | some ch => simp [closeAt, allPages, ih, keptGo, hp, hc]
      · cases cur with
        | none =>
          rw [segmentGo_cons_plain_none _ _ _ _ _ hp hc]
          simp [ih, keptGo, hp, hc]
        | some ch =>
          rw [segmentGo_cons_plain_open _ _ _ _ _ _ hp hc]
          simp [ih, keptGo, hp, hc]

/-- Helper for C10: the kept and the orphaned descriptors partition the
input, as a permutation. -/
theorem keptGo_append_orphanGo_perm (items : List TocItem) :
    ∀ b, (keptGo items b ++ orphanGo items b).Perm items := by
  induction items with
  | nil => intro b; simp [keptGo, orphanGo]
  | cons item rest ih =>
    intro b
    rcases Bool.eq_false_or_eq_true (titleMentionsPremessa item.title) with hp | hp
    · simp only [keptGo, orphanGo, hp, if_true, List.cons_append]
      exact (ih false).cons item
    · rcases Bool.eq_false_or_eq_true (isChapterStart item.title) with hc | hc
      · simp only [keptGo, orphanGo, hp, hc]
        simp only [Bool.false_eq_true, if_false, if_true, List.cons_append]
        exact (ih true).cons item
      · rcases Bool.eq_false_or_eq_true b with hb | hb
        · subst hb
          simp only [keptGo, orphanGo, hp, hc]
          simp only [Bool.false_eq_true, if_false, if_true, List.cons_append]
          exact (ih true).cons item
        · subst hb
          simp only [keptGo, orphanGo, hp, hc]
          simp only [Bool.false_eq_true, if_false]
          exact List.perm_middle.trans ((ih false).cons item)

/-- Counterexample to C10 as stated for arbitrary inputs: when the same
descriptor occurs twice — once in the orphan position between the Premessa
group and the chapter marker, once inside the chapter — it is discarded at
its first occurrence yet still appears in a returned group's pages. -/
theorem segment_orphans_counterexample :
    dupItem ∈ segmentOrphans tocDup ∧
    ∃ ch ∈ identifyChapters tocDup, dupItem ∈ ch.pages := by
  decide

/-- C10 as amended: on a table of contents with pairwise distinct page
numbers, every descriptor the segmenter discards (those processed while no
chapter is open that match neither title pattern — including descriptors
between a Premessa group and the next chapter marker) appears in no
returned group's pages. -/
theorem segment_orphans_excluded (toc : List TocItem)
    (hnodup : List.Pairwise (fun a b => a.pageNum ≠ b.pageNum) toc) :
    ∀ item ∈ segmentOrphans toc, ∀ ch ∈ identifyChapters toc, item ∉ ch.pages := by
  intro item horph ch hch hmem
  have hall : item ∈ allPages (identifyChapters toc) := mem_allPages_of_mem hch hmem
  have hkept : allPages (identifyChapters toc) = keptGo toc false := by
    unfold identifyChapters
    rw [segmentGo_allPages]
    rfl
  rw [hkept] at hall
  have hnd : toc.Nodup := by
    refine List.Pairwise.imp ?_ hnodup
    intro a b hab heq
    exact hab (congrArg TocItem.pageNum heq)
  have hle := List.nodup_iff_count_le_one.mp hnd item
  have hcnt := (keptGo_append_orphanGo_perm toc false).count_eq item
  rw [List.count_append] at hcnt
  have h1 : 0 < (keptGo toc false).count item := List.count_pos_iff.mpr hall
  have h2 : 0 < (orphanGo toc false).count item := List.count_pos_iff.mpr horph
  omega

/-- Witness for the amended C10: the plain descriptor following the
Premessa group is orphaned and appears in no returned group. -/
theorem segment_orphans_excluded_witness :
    orphanItem ∈ segmentOrphans orphanToc ∧
    ∀ ch ∈ identifyChapters orphanToc, orphanItem ∉ ch.pages := by
  have hpw : List.Pairwise (fun a b => a.pageNum ≠ b.pageNum) orphanToc := by decide
  have hmem : orphanItem ∈ segmentOrphans orphanToc := by decide
  exact ⟨hmem, segment_orphans_excluded orphanToc hpw orphanItem hmem⟩

/-- Counterexample to C9 as stated: on the title `"a\tb"` the source keeps
the tab (its removal class `[^a-zA-Z0-9\s\-_.]` spares every whitespace
character) and collapses it to an underscore, while the claim's pipeline —
which removes every character outside `[A-Za-z0-9 _.-]`, a class without
the tab — deletes it, so the two functions disagree. -/
theorem sanitize_counterexample :
    sanitizeFileName "a\tb" = "a_b" ∧ sanitizeClaim "a\tb" = "ab" ∧
      sanitizeFileName "a\tb" ≠ sanitizeClaim "a\tb" := by
  decide

/-- Helper for C9: the seven sequential transliteration maps of the source
compose to the claim's single transliteration map. -/
theorem translit_comp (c : Char) :
    translitN (translitC (translitU (translitO (translitI (translitE (translitA c)))))) =
      translitSpec c := by
  by_cases h1 : c = 'à' ∨ c = 'á' ∨ c = 'â' ∨ c = 'ã' ∨ c = 'ä' ∨ c = 'å'
  · rcases h1 with rfl | rfl | rfl | rfl | rfl | rfl <;> decide
  by_cases h2 : c = 'è' ∨ c = 'é' ∨ c = 'ê' ∨ c = 'ë'
  · rcases h2 with rfl | rfl | rfl | rfl <;> decide
  by_cases h3 : c = 'ì' ∨ c = 'í' ∨ c = 'î' ∨ c = 'ï'
  · rcases h3 with rfl | rfl | rfl | rfl <;> decide
  by_cases h4 : c = 'ò' ∨ c = 'ó' ∨ c = 'ô' ∨ c = 'õ' ∨ c = 'ö'
  · rcases h4 with rfl | rfl | rfl | rfl | rfl <;> decide
  by_cases h5 : c = 'ù' ∨ c = 'ú' ∨ c = 'û' ∨ c = 'ü'
  · rcases h5 with rfl | rfl | rfl | rfl <;> decide
  by_cases h6 : c = 'ç'
  · subst h6
    decide
  by_cases h7 : c = 'ñ'
  · subst h7
    decide
  simp [translitA, translitE, translitI, translitO, translitU, translitC, translitN,
    translitSpec, h1, h2, h3, h4, h5, h6, h7]

/-- Helper for C9: the source's keep-class and the amended keep-class agree
on every character (a space is whitespace). -/
theorem keepChar_eq_amended (c : Char) : keepChar c = keepCharAmended c := by
  unfold keepChar keepCharAmended
  by_cases hs : c = ' '
  · subst hs
    decide
  · have hsd : (decide (c = ' ')) = false := decide_eq_false hs
    rw [hsd]
    cases c.isAlphanum <;> cases c.isWhitespace <;>
      cases decide (c = '-') <;> cases decide (c = '_') <;> cases decide (c = '.') <;> rfl

/-- C9 as amended: `sanitizeFileName` equals the claim's pipeline with the
removal step amended to spare whitespace characters (which the following
step collapses to single underscores): transliterate accents, strip
quote/apostrophe characters, remove characters outside `[A-Za-z0-9 _.-]`
except whitespace, collapse whitespace runs to single underscores, trim
leading/trailing underscores, lowercase, truncate to 80 characters. -/
theorem sanitize_eq_amended (title : String) :
    sanitizeFileName title = sanitizeAmended title := by
  have hmap : ∀ l : List Char,
      ((((((l.map translitA).map translitE).map translitI).map
        translitO).map translitU).map translitC).map translitN = l.map translitSpec := by
    intro l
    induction l with
    | nil => rfl
    | cons c rest ih =>
      simp only [List.map_cons]
      rw [translit_comp c, ih]
  unfold sanitizeFileName sanitizeAmended
  rw [hmap]
  rw [List.filter_congr
    (fun c _ => keepChar_eq_amended c :
      ∀ c ∈ (title.toList.map translitSpec).filter (fun c => !(isQuoteChar c)),
        keepChar c = keepCharAmended c)]

end PandoraCampus
